import Mathlib

/-!
# Verification of `get_sunsynk_history.py`

A shallow embedding of the pure core of `get_sunsynk_history.py` (the
Sunsynk history export script), together with theorems settling the
frozen claims about its specification.

Modelling conventions:
* Python `date` objects are day ordinals (`Int`); `date + timedelta(days=k)`
  is `+ k`, comparison is `Int` comparison.  Conversion between ordinals and
  civil `(year, month, day)` triples uses the standard proleptic-Gregorian
  algorithms, which is what Python's `datetime.date` implements.
* Python `datetime` values are a day ordinal paired with hour/minute/second;
  comparison is lexicographic, as in CPython.
* Python `dict` is an association list with insert-or-replace-in-place
  semantics (CPython preserves insertion order; an update of an existing key
  keeps its position).  Python `set` is a duplicate-free list where only
  membership matters.
* Fallible operations return `Option`; the one exception the fetch loop
  catches (`ConnectionAbortedError` on HTTP 401) and uncaught exceptions
  (e.g. `KeyboardInterrupt`) are modelled with explicit outcome types.
-/

/-! ## Calendar arithmetic (model of Python `datetime.date`) -/

/-- Day ordinal of a civil date (proleptic Gregorian, epoch 1970-01-01 = 0).
This is the arithmetic `datetime.date.toordinal` realizes, up to the
constant epoch shift, which cancels in every comparison and difference. -/
def daysFromCivil (y : Int) (m d : Nat) : Int :=
  let y' : Int := if m ≤ 2 then y - 1 else y
  let era : Int := y'.fdiv 400
  let yoe : Int := y' - era * 400
  let mp : Int := if 3 ≤ m then (m : Int) - 3 else (m : Int) + 9
  let doy : Int := (153 * mp + 2).fdiv 5 + (d : Int) - 1
  let doe : Int := yoe * 365 + yoe.fdiv 4 - yoe.fdiv 100 + doy
  era * 146097 + doe - 719468

/-- Civil `(year, month, day)` of a day ordinal (inverse of `daysFromCivil`);
used by the model of `strftime`. -/
def civilFromDays (z0 : Int) : Int × Nat × Nat :=
  let z : Int := z0 + 719468
  let era : Int := z.fdiv 146097
  let doe : Nat := (z - era * 146097).toNat
  let yoe : Nat := (doe - doe / 1460 + doe / 36524 - doe / 146096) / 365
  let y : Int := (yoe : Int) + era * 400
  let doy : Nat := doe - (365 * yoe + yoe / 4 - yoe / 100)
  let mp : Nat := (5 * doy + 2) / 153
  let d : Nat := doy - (153 * mp + 2) / 5 + 1
  let m : Nat := if mp < 10 then mp + 3 else mp - 9
  (if m ≤ 2 then y + 1 else y, m, d)

/-- Is `y` a (proleptic Gregorian) leap year? -/
def isLeapYear (y : Int) : Bool :=
  y % 4 = 0 && (y % 100 ≠ 0 || y % 400 = 0)

/-- Number of days in month `m` of year `y`. -/
def daysInMonth (y : Int) (m : Nat) : Nat :=
  if m = 2 then (if isLeapYear y then 29 else 28)
  else if m = 4 ∨ m = 6 ∨ m = 9 ∨ m = 11 then 30
  else 31

/-- Left-pad the decimal rendering of `n` with zeros to width `w`
(model of `strftime`'s zero padding). -/
def zfill (w : Nat) (n : Nat) : String :=
  let s := toString n
  String.mk (List.replicate (w - s.length) '0') ++ s

/-- `strftime("%Y-%m-%d")` on a day ordinal. -/
def fmtDate (ord : Int) : String :=
  let (y, m, d) := civilFromDays ord
  zfill 4 y.toNat ++ "-" ++ zfill 2 m ++ "-" ++ zfill 2 d

/-! ## `datetime` values -/

/-- Model of a Python `datetime`: the day ordinal of its date part plus a
time of day.  `datetime.combine(date_part, parsed_time)` builds one. -/
structure PyDateTime where
  ord : Int
  hour : Nat
  minute : Nat
  second : Nat
deriving DecidableEq, Repr

/-- CPython's `datetime` comparison: lexicographic on
(date, hour, minute, second). -/
def PyDateTime.le (a b : PyDateTime) : Prop :=
  a.ord < b.ord ∨ (a.ord = b.ord ∧
    (a.hour < b.hour ∨ (a.hour = b.hour ∧
      (a.minute < b.minute ∨ (a.minute = b.minute ∧ a.second ≤ b.second)))))

instance : DecidableRel PyDateTime.le := by
  intro a b; unfold PyDateTime.le; infer_instance

instance : IsTotal PyDateTime PyDateTime.le where
  total a b := by
    unfold PyDateTime.le
    rcases lt_trichotomy a.ord b.ord with h | h | h
    · exact Or.inl (Or.inl h)
    · rcases lt_trichotomy a.hour b.hour with h2 | h2 | h2
      · exact Or.inl (Or.inr ⟨h, Or.inl h2⟩)
      · rcases lt_trichotomy a.minute b.minute with h3 | h3 | h3
        · exact Or.inl (Or.inr ⟨h, Or.inr ⟨h2, Or.inl h3⟩⟩)
        · rcases Nat.le_total a.second b.second with h4 | h4
          · exact Or.inl (Or.inr ⟨h, Or.inr ⟨h2, Or.inr ⟨h3, h4⟩⟩⟩)
          · exact Or.inr (Or.inr ⟨h.symm, Or.inr ⟨h2.symm, Or.inr ⟨h3.symm, h4⟩⟩⟩)
        · exact Or.inr (Or.inr ⟨h.symm, Or.inr ⟨h2.symm, Or.inl h3⟩⟩)
      · exact Or.inr (Or.inr ⟨h.symm, Or.inl h2⟩)
    · exact Or.inr (Or.inl h)

instance : IsTrans PyDateTime PyDateTime.le where
  trans a b c hab hbc := by
    unfold PyDateTime.le at *
    rcases hab with h1 | ⟨e1, h1⟩
    · rcases hbc with h2 | ⟨e2, _⟩
      · exact Or.inl (h1.trans h2)
      · exact Or.inl (e2 ▸ h1)
    · rcases hbc with h2 | ⟨e2, h2⟩
      · exact Or.inl (e1 ▸ h2)
      · refine Or.inr ⟨e1.trans e2, ?_⟩
        rcases h1 with h1 | ⟨f1, h1⟩
        · rcases h2 with h2 | ⟨f2, _⟩
          · exact Or.inl (h1.trans h2)
          · exact Or.inl (f2 ▸ h1)
        · rcases h2 with h2 | ⟨f2, h2⟩
          · exact Or.inl (f1 ▸ h2)
          · refine Or.inr ⟨f1.trans f2, ?_⟩
            rcases h1 with h1 | ⟨g1, h1⟩
            · rcases h2 with h2 | ⟨g2, _⟩
              · exact Or.inl (h1.trans h2)
              · exact Or.inl (g2 ▸ h1)
            · rcases h2 with h2 | ⟨g2, h2⟩
              · exact Or.inl (g1 ▸ h2)
              · exact Or.inr ⟨g1.trans g2, h1.trans h2⟩

/-- `strftime("%Y-%m-%d %H:%M:%S")` on a `datetime` — the canonical first
CSV column. -/
def fmtDateTime (t : PyDateTime) : String :=
  fmtDate t.ord ++ " " ++ zfill 2 t.hour ++ ":" ++ zfill 2 t.minute ++ ":"
    ++ zfill 2 t.second

/-! ## `strptime` time-of-day parsing

`parse_api_timestamp` tries the formats `"%H:%M:%S"` then `"%H:%M"`.
CPython's `_strptime` compiles `%H` to the regex `2[0-3]|[0-1]\d|\d`,
`%M` to `[0-5]\d|\d` and `%S` to `6[0-1]|[0-5]\d|\d`: each field greedily
takes two digits when their value fits the bound, else one digit, and the
whole string must be consumed.  A matched second of 60 or 61 still fails
at `time()` construction (seconds are 0–59), which surfaces as the same
`ValueError` the format loop catches. -/

/-- Numeric value of a digit character. -/
def digitVal (c : Char) : Nat := c.toNat - '0'.toNat

/-- Parse one `strptime` numeric field: two digits if their value is at most
`maxVal`, else one digit; returns the value and the remaining characters. -/
def parseField2 (maxVal : Nat) : List Char → Option (Nat × List Char)
  | [] => none
  | c1 :: rest =>
    if c1.isDigit then
      match rest with
      | c2 :: rest2 =>
        if c2.isDigit ∧ 10 * digitVal c1 + digitVal c2 ≤ maxVal then
          some (10 * digitVal c1 + digitVal c2, rest2)
        else some (digitVal c1, rest)
      | [] => some (digitVal c1, [])
    else none

/-- `datetime.strptime(s, "%H:%M:%S").time()`, as hour/minute/second. -/
def strptimeHMS (cs : List Char) : Option (Nat × Nat × Nat) :=
  match parseField2 23 cs with
  | some (h, ':' :: r1) =>
    match parseField2 59 r1 with
    | some (m, ':' :: r2) =>
      match parseField2 61 r2 with
      | some (s, []) => if s ≤ 59 then some (h, m, s) else none
      | _ => none
    | _ => none
  | _ => none

/-- `datetime.strptime(s, "%H:%M").time()`, as hour/minute. -/
def strptimeHM (cs : List Char) : Option (Nat × Nat) :=
  match parseField2 23 cs with
  | some (h, ':' :: r1) =>
    match parseField2 59 r1 with
    | some (m, []) => some (h, m)
    | _ => none
  | _ => none

/-- `parse_api_timestamp(date_part, time_part_str)`: rejects a missing or
empty time string, tries `"%H:%M:%S"` then `"%H:%M"`, and combines the
parsed time of day with the given date. -/
def parse_api_timestamp (datePart : Int) (timePart : Option String) :
    Option PyDateTime :=
  match timePart with
  | none => none
  | some s =>
    if s = "" then none
    else
      match strptimeHMS s.data with
      | some (h, m, sec) => some ⟨datePart, h, m, sec⟩
      | none =>
        match strptimeHM s.data with
        | some (h, m) => some ⟨datePart, h, m, 0⟩
        | none => none

example : parse_api_timestamp 0 (some "08:30") = some ⟨0, 8, 30, 0⟩ := by decide
example : parse_api_timestamp 0 (some "8:30") = some ⟨0, 8, 30, 0⟩ := by decide
example : parse_api_timestamp 0 (some "25:30") = none := by decide
example : parse_api_timestamp 0 (some "08:30:15") = some ⟨0, 8, 30, 15⟩ := by
  decide

/-! ## `format_value` (approximation of Python `float` parse / stringification)

`format_value` runs `float(value_str)`, renders whole numbers through
`str(int(num))` and everything else through `str(num)`, and returns the
input unchanged when `float` raises.  The exact behavior of
`float()`/`str()` is IEEE-754 binary64 parsing with round-to-nearest-even
followed by CPython's shortest-round-trip repr (which switches to exponent
notation below `1e-4` and at `1e16`); those bit-level semantics are *not*
modelled here.  What follows is a deliberately simplified stand-in —
plain decimal literals read exactly as a mantissa/exponent pair `(m, e)`
denoting `m / 10^e` with trailing zeros stripped, printed in fixed point —
which diverges from CPython on exponent or underscore literals, on values
whose double rounds to an integer (`"4.0000000000000001"`), and on
magnitudes `str()` prints in exponent form (`"0.00001"`).  It is used in
the rest of this development only as an opaque value formatter inside the
record-restructuring pipeline, where nothing depends on which string it
produces. -/

/-- Characters Python's `float()` strips from both ends. -/
def pyWs (c : Char) : Bool :=
  c = ' ' || c = '\t' || c = '\n' || c = '\r' || c = '\x0b' || c = '\x0c'

/-- Value of a digit run, most significant first. -/
def digitsToNat (ds : List Char) : Nat :=
  ds.foldl (fun a c => 10 * a + digitVal c) 0

/-- Parse an unsigned decimal literal `D+ | D+.D* | .D+` (entire input),
returning the digits' value and the number of fractional digits. -/
def pyFloatCore (cs : List Char) : Option (Nat × Nat) :=
  let ip := cs.takeWhile Char.isDigit
  match cs.dropWhile Char.isDigit with
  | [] => if ip = [] then none else some (digitsToNat ip, 0)
  | '.' :: rest2 =>
    let fp := rest2.takeWhile Char.isDigit
    if rest2.dropWhile Char.isDigit = [] ∧ (ip ≠ [] ∨ fp ≠ []) then
      some (digitsToNat (ip ++ fp), fp.length)
    else none
  | _ => none

/-- Remove trailing decimal zeros: `(m, e)` with `m / 10^e` unchanged and
`e` minimal.  After this, `e = 0` iff the value is a whole number. -/
def stripTrailingZeros : Int → Nat → Int × Nat
  | m, 0 => (m, 0)
  | m, e + 1 => if m % 10 = 0 then stripTrailingZeros (m / 10) e else (m, e + 1)

/-- Model of `float(s)` on plain decimal literals: `some (m, e)` denotes the
value `m / 10^e`, `none` the `ValueError` path. -/
def pyFloatParse (s : String) : Option (Int × Nat) :=
  let cs := ((s.data.dropWhile pyWs).reverse.dropWhile pyWs).reverse
  match cs with
  | '+' :: rest =>
    (pyFloatCore rest).map fun p => stripTrailingZeros (Int.ofNat p.1) p.2
  | '-' :: rest =>
    (pyFloatCore rest).map fun p => stripTrailingZeros (-(Int.ofNat p.1)) p.2
  | _ =>
    (pyFloatCore cs).map fun p => stripTrailingZeros (Int.ofNat p.1) p.2

/-- `str(num)` for a non-integral decimal `m / 10^e`: sign, integer part,
`'.'`, and the `e` fractional digits. -/
def renderDec (m : Int) (e : Nat) : String :=
  let sign := if m < 0 then "-" else ""
  let n := m.natAbs
  sign ++ toString (n / 10 ^ e) ++ "." ++ zfill e (n % 10 ^ e)

/-- `format_value(value_str)`: `""` on `None`; whole-number floats rendered
through `str(int(num))`; other parsed floats through `str(num)`; inputs
`float` rejects pass through unchanged. -/
def format_value (value_str : Option String) : String :=
  match value_str with
  | none => ""
  | some s =>
    match pyFloatParse s with
    | none => s
    | some (m, 0) => toString m
    | some (m, e + 1) => renderDec m (e + 1)

example : format_value (some "123.0") = "123" := by decide
example : format_value (some "45.6") = "45.6" := by decide
example : format_value (some "abc") = "abc" := by decide
example : format_value (some "-0.0") = "0" := by decide
example : format_value (some " 7.25 ") = "7.25" := by decide

/-! ## `strptime("%Y-%m-%d")` (CLI date arguments)

CPython compiles `%Y` to four mandatory digits, `%m` to
`1[0-2]|0[1-9]|[1-9]` and `%d` to `3[01]|[12]\d|0[1-9]|[1-9]`; the whole
string must be consumed, and `date` construction then validates the day
against the month length. -/

/-- `datetime.strptime(s, "%Y-%m-%d").date()` as a day ordinal. -/
def strptimeDate (s : String) : Option Int :=
  match s.data with
  | y1 :: y2 :: y3 :: y4 :: '-' :: rest =>
    if y1.isDigit ∧ y2.isDigit ∧ y3.isDigit ∧ y4.isDigit then
      let y : Nat :=
        ((digitVal y1 * 10 + digitVal y2) * 10 + digitVal y3) * 10 + digitVal y4
      match parseField2 12 rest with
      | some (m, '-' :: rest2) =>
        if 1 ≤ m then
          match parseField2 31 rest2 with
          | some (d, []) =>
            if 1 ≤ d ∧ d ≤ daysInMonth (y : Int) m then
              some (daysFromCivil (y : Int) m d)
            else none
          | _ => none
        else none
      | _ => none
    else none
  | _ => none

example : strptimeDate "2024-03-01" = some (daysFromCivil 2024 3 1) := by decide
example : strptimeDate "2024-02-30" = none := by decide
example : strptimeDate "not-a-date" = none := by decide

/-! ## Python `dict` / `set` model -/

/-- Python `dict` as an association list: insertion order, first (unique)
binding per key. -/
def dictGet {α β : Type} [DecidableEq α] : List (α × β) → α → Option β
  | [], _ => none
  | (k', v) :: t, k => if k' = k then some v else dictGet t k

/-- `d[k] = v`: replace in place when the key exists, else append. -/
def dictInsert {α β : Type} [DecidableEq α] :
    List (α × β) → α → β → List (α × β)
  | [], k, v => [(k, v)]
  | (k', v') :: t, k, v =>
    if k' = k then (k', v) :: t else (k', v') :: dictInsert t k v

/-- `d.update(other)`: insert every binding of `other` in order. -/
def dictUpdate {α β : Type} [DecidableEq α]
    (d other : List (α × β)) : List (α × β) :=
  other.foldl (fun acc p => dictInsert acc p.1 p.2) d

/-- The keys of a dict, in order. -/
def dictKeys {α β : Type} (d : List (α × β)) : List α := d.map Prod.fst

/-- Python `set.add`: duplicate-free list, membership only. -/
def setInsert (s : List String) (x : String) : List String :=
  if x ∈ s then s else s ++ [x]

/-! ## Daily restructuring (`get_daily_energy_data_restructured`)

The pure core of the daily fetcher on a decoded response body: iterate the
measurement series (`infos`), derive each column key `label[unit]` (plain
`label` when the unit is empty), and file every record whose time parses
and whose value is present under its combined datetime. -/

/-- One record of a measurement series: `record.get('time')` /
`record.get('value')`. -/
structure ApiRecord where
  time : Option String
  value : Option String
deriving DecidableEq, Repr

/-- One measurement series: `label`, `unit` (default `''`), `records`. -/
structure ApiInfo where
  label : Option String
  unit : String
  records : List ApiRecord
deriving DecidableEq, Repr

/-- A timestamp-keyed row: column key → formatted value. -/
abbrev Row := List (String × String)

/-- The day (and whole-run) table: datetime → row. -/
abbrev DataTable := List (PyDateTime × Row)

/-- The body of the per-record loop: accept the record only when its time
parses and its value is present, filing `format_value` of the value under
`header_name` in the row of the combined datetime. -/
def processRecord (targetDate : Int) (headerName : String)
    (tbl : DataTable) (r : ApiRecord) : DataTable :=
  match parse_api_timestamp targetDate r.time, r.value with
  | some k, some v =>
    dictInsert tbl k (dictInsert ((dictGet tbl k).getD []) headerName
      (format_value (some v)))
  | _, _ => tbl

/-- The body of the per-series loop: skip a series with a missing or empty
label, else fold its records under the derived column key. -/
def processInfo (targetDate : Int) (tbl : DataTable) (info : ApiInfo) :
    DataTable :=
  match info.label with
  | none => tbl
  | some lab =>
    if lab = "" then tbl
    else
      let headerName :=
        if info.unit = "" then lab else lab ++ "[" ++ info.unit ++ "]"
      info.records.foldl (processRecord targetDate headerName) tbl

/-- The restructuring step of `get_daily_energy_data_restructured` on a
successful response: `some` table when any record was accepted, `none`
(Python `None`) when the `infos` are empty, recordless, or nothing parsed. -/
def restructureDay (targetDate : Int) (infos : List ApiInfo) :
    Option DataTable :=
  let tbl := infos.foldl (processInfo targetDate) []
  if tbl = [] then none else some tbl

example :
    restructureDay 0
      [⟨some "PV", "W", [⟨some "08:30", some "123.0"⟩, ⟨some "bad", some "1"⟩]⟩]
      = some [(⟨0, 8, 30, 0⟩, [("PV[W]", "123")])] := by decide

/-! ## `main`: argument handling and date-range derivation

Model of `main` from the `len(sys.argv)` check down to the 90-day warning.
`get_credentials`/`login` sit between the usage check and the date logic
but do not touch it; the model assumes credentials resolve (their failure
exits before any date handling, status 0).  Nothing in this phase calls
`sys.exit` with a nonzero status: `print_usage_and_exit` ends with
`sys.exit(0)`, and the `ValueError` handler plainly `return`s from `main`,
which ends the process with status 0. -/

/-- Where the argument/date phase of `main` leaves the process. -/
inductive MainExit where
  /-- `print_usage_and_exit`: usage text then `sys.exit(0)`. -/
  | usageExit : MainExit
  /-- "Error: Too many date arguments." then `print_usage_and_exit`
  (so also exit status 0). -/
  | tooManyDates : MainExit
  /-- "Error: Invalid date format" then `return` from `main`
  (process exit status 0). -/
  | invalidDate : MainExit
  /-- Date range resolved; execution continues into login and the fetch
  loop with this inclusive `[start, end]`. -/
  | proceed (startOrd endOrd : Int) : MainExit
deriving DecidableEq, Repr

/-- Lines 403–409: swap a descending range (with a warning) so the fetch
always runs ascending. -/
def ensureAscending (s e : Int) : Int × Int :=
  if s > e then (e, s) else (s, e)

/-- Lines 380–413: derive the effective date range from the positional
date arguments.  Zero dates ⇒ `[today, today]`; one date ⇒
`[date, today - 1]`; two dates ⇒ `[date1, date2]`; more ⇒ error + usage;
any `strptime` failure ⇒ the `ValueError` handler. -/
def datePhase (dates : List String) (today : Int) : MainExit :=
  match dates with
  | [] =>
    let (s, e) := ensureAscending today today
    .proceed s e
  | [d1] =>
    match strptimeDate d1 with
    | none => .invalidDate
    | some s0 =>
      let (s, e) := ensureAscending s0 (today - 1)
      .proceed s e
  | [d1, d2] =>
    match strptimeDate d1 with
    | none => .invalidDate
    | some s0 =>
      match strptimeDate d2 with
      | none => .invalidDate
      | some e0 =>
        let (s, e) := ensureAscending s0 e0
        .proceed s e
  | _ => .tooManyDates

/-- `argparse` positional extraction: `-o`/`--outputdir` consumes a value,
everything else is a date argument. -/
def parsePositional : List String → List String
  | [] => []
  | a :: rest =>
    if a = "-o" ∨ a = "--outputdir" then
      match rest with
      | [] => []
      | _ :: rest2 => parsePositional rest2
    else if a.startsWith "--outputdir=" then parsePositional rest
    else a :: parsePositional rest

/-- `main` from entry to the 90-day check: `len(sys.argv) == 1` (no
arguments at all) prints usage and exits 0; otherwise the date phase runs
on the positional arguments. -/
def mainEntry (argv : List String) (today : Int) : MainExit :=
  if argv = [] then .usageExit
  else datePhase (parsePositional argv) today

/-- Process exit status of an argument-phase outcome, `none` when the run
continues past this phase. -/
def exitCode : MainExit → Option Nat
  | .usageExit => some 0
  | .tooManyDates => some 0
  | .invalidDate => some 0
  | .proceed _ _ => none

/-- Does the run go on to fetch data? -/
def reachesFetch : MainExit → Bool
  | .proceed _ _ => true
  | _ => false

/-- Lines 415–419: the 90-day retention check only prints this warning —
there is no abort and no override flag in the program. -/
def warns90 (today : Int) : MainExit → Bool
  | .proceed s _ => decide (s < today - 90)
  | _ => false

/-! ## The fetch loop (`main`, lines 459–487)

One iteration per day from `start_dt` to `end_dt`.  The outcome of each
day's `get_daily_energy_data_restructured` call is a value, `None`, or an
exception; the loop's `try` catches only `ConnectionAbortedError` (raised
exactly on HTTP 401), which clears `all_data_by_datetime`, sets
`fetch_interrupted`, and breaks.  Any other exception — a
`KeyboardInterrupt` included — propagates out of `main`. -/

/-- The observable outcome of one day's fetch. -/
inductive DayOutcome where
  /-- The call returned a (restructured) dict. -/
  | ok (tbl : DataTable) : DayOutcome
  /-- The call returned `None` (skipped day: no data, HTTP error other
  than 401, rate limit, network or decode error). -/
  | skipped : DayOutcome
  /-- The call raised `ConnectionAbortedError` (HTTP 401). -/
  | authError : DayOutcome
  /-- The call was interrupted by an exception the loop does not catch,
  e.g. `KeyboardInterrupt`. -/
  | interrupt : DayOutcome
deriving DecidableEq

/-- `all_headers.update(timestamp_data.keys())` over every row of a day's
dict. -/
def updateHeaders (hdrs : List String) (tbl : DataTable) : List String :=
  tbl.foldl (fun h p => p.2.foldl (fun h' q => setInsert h' q.1) h) hdrs

/-- The inclusive ascending day list the `while current_loop_date <= end_dt`
loop visits. -/
def dateRange (s e : Int) : List Int :=
  (List.range (e + 1 - s).toNat).map (fun i => s + Int.ofNat i)

/-- The fetch loop over a list of days.  `Except.error ()` is an uncaught
exception propagating out of `main` (no CSV stage is reached); `Except.ok`
carries `(all_data_by_datetime, all_headers, fetch_interrupted)`. -/
def fetchLoop (f : Int → DayOutcome) :
    List Int → DataTable → List String →
    Except Unit (DataTable × List String × Bool)
  | [], acc, hdrs => .ok (acc, hdrs, false)
  | d :: ds, acc, hdrs =>
    match f d with
    | .ok tbl =>
      if tbl = [] then fetchLoop f ds acc hdrs
      else fetchLoop f ds (dictUpdate acc tbl) (updateHeaders hdrs tbl)
    | .skipped => fetchLoop f ds acc hdrs
    | .authError => .ok ([], hdrs, true)
    | .interrupt => .error ()

/-- Lines 482–487: a CSV is written exactly when the loop finished
normally with a nonempty dataset and a nonempty header set. -/
def csvWritten : Except Unit (DataTable × List String × Bool) → Bool
  | .error _ => false
  | .ok (data, hdrs, interrupted) => !interrupted && !data.isEmpty && !hdrs.isEmpty

/-! ## CSV serialization (`main`, lines 489–524)

`DictWriter` over `["DateTime"] + sorted(all_headers)`: one header row,
then one row per datetime in ascending order; a field absent from a row's
dict is written as `restval`, the empty string. -/

/-- `sorted(list(all_headers))`. -/
def sortedHeaders (hdrs : List String) : List String :=
  List.insertionSort (· ≤ ·) hdrs

/-- `sorted(all_data_by_datetime.keys())`. -/
def sortedDatetimes (data : DataTable) : List PyDateTime :=
  List.insertionSort PyDateTime.le (dictKeys data)

/-- The header row: `DateTime` then every observed column key, ascending. -/
def csvHeaderRow (hdrs : List String) : List String :=
  "DateTime" :: sortedHeaders hdrs

/-- One data row: the canonical datetime string, then per sorted column
the row's value or the empty field. -/
def csvRowFor (data : DataTable) (hdrs : List String) (k : PyDateTime) :
    List String :=
  fmtDateTime k ::
    (sortedHeaders hdrs).map (fun h =>
      (dictGet ((dictGet data k).getD []) h).getD "")

/-- All data rows, in ascending datetime order. -/
def csvDataRows (data : DataTable) (hdrs : List String) : List (List String) :=
  (sortedDatetimes data).map (csvRowFor data hdrs)

/-- The whole CSV, as a list of rows of fields. -/
def csvOutput (data : DataTable) (hdrs : List String) : List (List String) :=
  csvHeaderRow hdrs :: csvDataRows data hdrs

/-- `all_data_by_datetime` as observable after the loop: `none` when an
uncaught exception killed the run. -/
def loopData : Except Unit (DataTable × List String × Bool) → Option DataTable
  | .error _ => none
  | .ok (d, _, _) => some d

/-- The `fetch_interrupted` flag after the loop; `none` when an uncaught
exception killed the run. -/
def loopFlag : Except Unit (DataTable × List String × Bool) → Option Bool
  | .error _ => none
  | .ok (_, _, b) => some b

/-! ## Concrete fixtures used to witness the loop theorems -/

/-- A one-record row, as the restructurer would build it. -/
def sampleRow : Row := [("PV[W]", "123")]

/-- A one-timestamp daily table. -/
def sampleTable : DataTable := [(⟨0, 8, 30, 0⟩, sampleRow)]

/-- Day 0 returns data, day 1 hits HTTP 401, later days would be skipped. -/
def cfC1 : Int → DayOutcome := fun d =>
  if d = 0 then .ok sampleTable else if d = 1 then .authError else .skipped

/-- Day 0 returns data, then the user interrupts. -/
def cfC9 : Int → DayOutcome := fun d =>
  if d = 0 then .ok sampleTable else .interrupt

/-- Two measurement series: one with a good and a bad record, one whose
only record has an unparseable time (so its column never materializes). -/
def infos10 : List ApiInfo :=
  [⟨some "PV", "W", [⟨some "08:30", some "123.0"⟩, ⟨some "oops", some "1"⟩]⟩,
   ⟨some "SOC", "%", [⟨some "bad-time", some "55"⟩]⟩]

/-- Day 0 returns the restructured `infos10`, every other day is skipped. -/
def f10 : Int → DayOutcome := fun d =>
  if d = 0 then .ok ((restructureDay 0 infos10).getD []) else .skipped

/-! ## Supporting lemmas -/

theorem ensureAscending_eq (s e : Int) :
    ensureAscending s e = (min s e, max s e) := by
  unfold ensureAscending
  split
  · rw [min_eq_right (by omega), max_eq_left (by omega)]
  · rw [min_eq_left (by omega), max_eq_right (by omega)]

theorem strptime_hm_hms_key : ∀ h < 24, ∀ m < 60,
    strptimeHM (zfill 2 h ++ ":" ++ zfill 2 m).data = some (h, m) ∧
    strptimeHMS (zfill 2 h ++ ":" ++ zfill 2 m).data = none ∧
    strptimeHMS (zfill 2 h ++ ":" ++ zfill 2 m ++ ":00").data = some (h, m, 0) := by
  decide

theorem strptime_hm_nonempty : ∀ h < 24, ∀ m < 60,
    (zfill 2 h ++ ":" ++ zfill 2 m) ≠ "" ∧
    (zfill 2 h ++ ":" ++ zfill 2 m ++ ":00") ≠ "" := by
  decide

/-! ## Claims -/

/-- **C2** (counterexample): a run whose resolved start date (2024-01-01)
precedes today (2024-06-01) minus 90 days does *not* abort: the 90-day
check only warns, the run proceeds into the fetch phase, and no exit
status has been produced — contradicting the claimed non-zero-status
abort (the CLI has no override flag at all). -/
theorem C2_counterexample :
    mainEntry ["2024-01-01"] (daysFromCivil 2024 6 1) =
      .proceed (daysFromCivil 2024 1 1) (daysFromCivil 2024 6 1 - 1) ∧
    warns90 (daysFromCivil 2024 6 1)
      (mainEntry ["2024-01-01"] (daysFromCivil 2024 6 1)) = true ∧
    reachesFetch (mainEntry ["2024-01-01"] (daysFromCivil 2024 6 1)) = true ∧
    exitCode (mainEntry ["2024-01-01"] (daysFromCivil 2024 6 1)) = none := by
  decide

/-- **C2** (amended): whenever the date phase resolves a range whose start
precedes (today − 90 days), the program emits the 90-day retention warning
but still proceeds to fetch — it never aborts for this reason. -/
theorem C2_warn_without_abort (dates : List String) (today s e : Int)
    (h : datePhase dates today = .proceed s e) (hold : s < today - 90) :
    warns90 today (datePhase dates today) = true ∧
    reachesFetch (datePhase dates today) = true ∧
    exitCode (datePhase dates today) = none := by
  rw [h]
  refine ⟨?_, rfl, rfl⟩
  simp [warns90, hold]

theorem C2_warn_without_abort_witness :
    warns90 (daysFromCivil 2024 6 1)
      (datePhase ["2023-12-25"] (daysFromCivil 2024 6 1)) = true ∧
    reachesFetch (datePhase ["2023-12-25"] (daysFromCivil 2024 6 1)) = true ∧
    exitCode (datePhase ["2023-12-25"] (daysFromCivil 2024 6 1)) = none :=
  C2_warn_without_abort ["2023-12-25"] (daysFromCivil 2024 6 1)
    (daysFromCivil 2023 12 25) (daysFromCivil 2024 6 1 - 1)
    (by decide) (by decide)

/-- **C3** (counterexample): an invalid date format and a three-date
invocation both end the process with exit status **0** (the `ValueError`
handler plainly `return`s from `main`, and the too-many-dates branch calls
`print_usage_and_exit`, which is `sys.exit(0)`) — contradicting the
claimed non-zero exit status. -/
theorem C3_counterexample :
    mainEntry ["2024-13-45"] 0 = .invalidDate ∧
    exitCode (mainEntry ["2024-13-45"] 0) = some 0 ∧
    mainEntry ["2024-01-01", "2024-01-02", "2024-01-03"] 0 = .tooManyDates ∧
    exitCode (mainEntry ["2024-01-01", "2024-01-02", "2024-01-03"] 0) = some 0 := by
  decide

/-- **C3** (amended): invoking with no arguments prints usage and exits
with status 0; an invalid date format or more than two date arguments
abort after an error message, but also with exit status 0. -/
theorem C3_exit_statuses :
    (∀ today : Int, mainEntry [] today = .usageExit ∧
      exitCode (mainEntry [] today) = some 0) ∧
    (∀ (ds : List String) (today : Int), 2 < ds.length →
      datePhase ds today = .tooManyDates ∧
      exitCode (datePhase ds today) = some 0) ∧
    (∀ (ds : List String) (today : Int), ds.length ≤ 2 →
      (∃ d ∈ ds, strptimeDate d = none) →
      datePhase ds today = .invalidDate ∧
      exitCode (datePhase ds today) = some 0) := by
  refine ⟨fun today => ⟨rfl, rfl⟩, ?_, ?_⟩
  · intro ds today hlen
    match ds with
    | [] => simp at hlen
    | [_] => simp at hlen
    | [_, _] => simp at hlen
    | _ :: _ :: _ :: _ => exact ⟨rfl, rfl⟩
  · intro ds today hlen hex
    match ds with
    | [] => simp at hex
    | [d1] =>
      obtain ⟨d, hd, hnone⟩ := hex
      simp only [List.mem_singleton] at hd
      subst hd
      simp [datePhase, hnone, exitCode]
    | [d1, d2] =>
      obtain ⟨d, hd, hnone⟩ := hex
      rcases List.mem_pair.mp hd with h | h
      · subst h
        simp [datePhase, hnone, exitCode]
      · subst h
        cases h1 : strptimeDate d1 with
        | none => simp [datePhase, h1, exitCode]
        | some v => simp [datePhase, h1, hnone, exitCode]
    | _ :: _ :: _ :: _ => simp at hlen

theorem C3_exit_statuses_witness :
    (datePhase ["bogus"] 0 = .invalidDate ∧
      exitCode (datePhase ["bogus"] 0) = some 0) ∧
    (datePhase ["1", "2", "3"] 0 = .tooManyDates ∧
      exitCode (datePhase ["1", "2", "3"] 0) = some 0) :=
  ⟨C3_exit_statuses.2.2 ["bogus"] 0 (by decide) ⟨"bogus", by decide, by decide⟩,
   C3_exit_statuses.2.1 ["1", "2", "3"] 0 (by decide)⟩

/-- **C4**: the effective date range is `[today, today]` for zero explicit
dates, `[d, today − 1]` for one (ascending via min/max when the single
date lies after yesterday), `[date1, date2]` (swapped if descending) for
two; and the single date `2024-01-10` with today `2024-03-01` resolves to
`[2024-01-10, 2024-02-29]`. -/
theorem C4_date_range_derivation :
    (∀ today : Int, datePhase [] today = .proceed today today) ∧
    (∀ (s1 : String) (d today : Int), strptimeDate s1 = some d →
      datePhase [s1] today = .proceed (min d (today - 1)) (max d (today - 1))) ∧
    (∀ (s1 s2 : String) (d1 d2 today : Int),
      strptimeDate s1 = some d1 → strptimeDate s2 = some d2 →
      datePhase [s1, s2] today = .proceed (min d1 d2) (max d1 d2)) ∧
    datePhase ["2024-01-10"] (daysFromCivil 2024 3 1) =
      .proceed (daysFromCivil 2024 1 10) (daysFromCivil 2024 2 29) := by
  refine ⟨?_, ?_, ?_, by decide⟩
  · intro today
    simp [datePhase, ensureAscending_eq]
  · intro s1 d today h
    simp [datePhase, h, ensureAscending_eq]
  · intro s1 s2 d1 d2 today h1 h2
    simp [datePhase, h1, h2, ensureAscending_eq]

theorem C4_date_range_derivation_witness :
    datePhase ["2024-01-10"] (daysFromCivil 2024 3 1) =
      .proceed (daysFromCivil 2024 1 10) (daysFromCivil 2024 2 29) ∧
    datePhase ["2024-03-05", "2024-03-02"] 0 =
      .proceed (min (daysFromCivil 2024 3 5) (daysFromCivil 2024 3 2))
        (max (daysFromCivil 2024 3 5) (daysFromCivil 2024 3 2)) :=
  ⟨C4_date_range_derivation.2.2.2,
   C4_date_range_derivation.2.2.1 "2024-03-05" "2024-03-02"
     (daysFromCivil 2024 3 5) (daysFromCivil 2024 3 2) 0 (by decide) (by decide)⟩

/-- **C6**: for every calendar day, `"08:30"` and `"08:30:00"` parse to
the same datetime, and in general the zero-padded `HH:MM` and `HH:MM:00`
forms of any valid hour/minute parse to the same datetime (hour, minute,
second 0 on that day). -/
theorem C6_hm_equals_hms (d : Int) (h m : Nat) (hh : h < 24) (hm : m < 60) :
    parse_api_timestamp d (some "08:30") =
      parse_api_timestamp d (some "08:30:00") ∧
    parse_api_timestamp d (some (zfill 2 h ++ ":" ++ zfill 2 m)) =
      parse_api_timestamp d (some (zfill 2 h ++ ":" ++ zfill 2 m ++ ":00")) ∧
    parse_api_timestamp d (some (zfill 2 h ++ ":" ++ zfill 2 m)) =
      some ⟨d, h, m, 0⟩ := by
  obtain ⟨k1, k2, k3⟩ := strptime_hm_hms_key h hh m hm
  obtain ⟨n1, n2⟩ := strptime_hm_nonempty h hh m hm
  refine ⟨?_, ?_, ?_⟩
  · have a1 : strptimeHMS ("08:30" : String).data = none := by decide
    have a2 : strptimeHM ("08:30" : String).data = some (8, 30) := by decide
    have a3 : strptimeHMS ("08:30:00" : String).data = some (8, 30, 0) := by decide
    have a4 : ("08:30" : String) ≠ "" := by decide
    have a5 : ("08:30:00" : String) ≠ "" := by decide
    simp only [parse_api_timestamp, if_neg a4, if_neg a5, a1, a2, a3]
  · simp only [parse_api_timestamp, if_neg n1, if_neg n2, k1, k2, k3]
  · simp only [parse_api_timestamp, if_neg n1, k1, k2]

theorem C6_hm_equals_hms_witness :
    parse_api_timestamp 0 (some (zfill 2 8 ++ ":" ++ zfill 2 30)) =
      parse_api_timestamp 0 (some (zfill 2 8 ++ ":" ++ zfill 2 30 ++ ":00")) ∧
    parse_api_timestamp 0 (some (zfill 2 8 ++ ":" ++ zfill 2 30)) =
      some ⟨0, 8, 30, 0⟩ :=
  ⟨(C6_hm_equals_hms 0 8 30 (by decide) (by decide)).2.1,
   (C6_hm_equals_hms 0 8 30 (by decide) (by decide)).2.2⟩

/-- **C7**: a record whose time string fails to parse or whose value is
absent is a no-op on the day's table — removing it from a record list
leaves the fold unchanged, so every other record of the day is unaffected
— and a record changes the table only when its time parses and its value
is present. -/
theorem C7_bad_record_skipped (d : Int) (hname : String) (tbl : DataTable)
    (xs ys : List ApiRecord) (r : ApiRecord)
    (hbad : parse_api_timestamp d r.time = none ∨ r.value = none) :
    List.foldl (processRecord d hname) tbl (xs ++ r :: ys) =
      List.foldl (processRecord d hname) tbl (xs ++ ys) ∧
    (∀ (tbl' : DataTable) (r' : ApiRecord),
      processRecord d hname tbl' r' ≠ tbl' →
      ∃ k v, parse_api_timestamp d r'.time = some k ∧ r'.value = some v) := by
  constructor
  · have hstep : ∀ t : DataTable, processRecord d hname t r = t := by
      intro t
      rcases hbad with hb | hb
      · simp [processRecord, hb]
      · cases hp : parse_api_timestamp d r.time <;> simp [processRecord, hp, hb]
    rw [List.foldl_append, List.foldl_append]
    simp [hstep]
  · intro tbl' r' hne
    cases hp : parse_api_timestamp d r'.time with
    | none => exact absurd (by simp [processRecord, hp]) hne
    | some k =>
      cases hv : r'.value with
      | none => exact absurd (by simp [processRecord, hp, hv]) hne
      | some v => exact ⟨k, v, rfl, rfl⟩

theorem C7_bad_record_skipped_witness :
    List.foldl (processRecord 0 "PV[W]") []
      ([(⟨some "08:30", some "1"⟩ : ApiRecord)] ++
        (⟨some "oops", some "2"⟩ : ApiRecord) :: [⟨some "08:35", some "3"⟩]) =
    List.foldl (processRecord 0 "PV[W]") []
      ([(⟨some "08:30", some "1"⟩ : ApiRecord)] ++ [⟨some "08:35", some "3"⟩]) :=
  (C7_bad_record_skipped 0 "PV[W]" [] [⟨some "08:30", some "1"⟩]
    [⟨some "08:35", some "3"⟩] ⟨some "oops", some "2"⟩ (Or.inl (by decide))).1

/-- The loop state after a prefix of days none of which raises: some
accumulated table and header set reached by ordinary iteration. -/
theorem fetchLoop_runs_early_days (f : Int → DayOutcome) (ds1 : List Int)
    (hpre : ∀ d ∈ ds1, f d ≠ .authError ∧ f d ≠ .interrupt) :
    ∀ (ds2 : List Int) (acc : DataTable) (hdrs : List String),
    ∃ acc' hdrs',
      fetchLoop f (ds1 ++ ds2) acc hdrs = fetchLoop f ds2 acc' hdrs' := by
  induction ds1 with
  | nil => exact fun ds2 acc hdrs => ⟨acc, hdrs, rfl⟩
  | cons d t ih =>
    intro ds2 acc hdrs
    have hd := hpre d (List.mem_cons_self d t)
    have ht : ∀ x ∈ t, f x ≠ .authError ∧ f x ≠ .interrupt :=
      fun x hx => hpre x (List.mem_cons_of_mem d hx)
    cases hfd : f d with
    | ok tbl =>
      by_cases htbl : tbl = []
      · simpa [fetchLoop, hfd, htbl] using ih ht ds2 acc hdrs
      · simpa [fetchLoop, hfd, htbl] using
          ih ht ds2 (dictUpdate acc tbl) (updateHeaders hdrs tbl)
    | skipped => simpa [fetchLoop, hfd] using ih ht ds2 acc hdrs
    | authError => exact absurd hfd hd.1
    | interrupt => exact absurd hfd hd.2

/-- **C1**: an HTTP 401 (`ConnectionAbortedError`) on day N of the range —
after any days that returned data or were skipped — stops the loop with
the accumulated dataset reset to empty and the interrupted flag set, so no
CSV is written; and a day-level failure that merely returns `None` leaves
the dataset and headers unchanged while the loop continues. -/
theorem C1_auth_failure_aborts (f : Int → DayOutcome) (ds1 ds2 : List Int)
    (dN : Int) (acc : DataTable) (hdrs : List String)
    (hN : f dN = .authError)
    (hpre : ∀ d ∈ ds1, f d ≠ .authError ∧ f d ≠ .interrupt) :
    loopData (fetchLoop f (ds1 ++ dN :: ds2) acc hdrs) = some [] ∧
    loopFlag (fetchLoop f (ds1 ++ dN :: ds2) acc hdrs) = some true ∧
    csvWritten (fetchLoop f (ds1 ++ dN :: ds2) acc hdrs) = false ∧
    (∀ (d : Int) (ds : List Int) (acc' : DataTable) (hdrs' : List String),
      f d = .skipped →
      fetchLoop f (d :: ds) acc' hdrs' = fetchLoop f ds acc' hdrs') := by
  obtain ⟨acc', hdrs', heq⟩ :=
    fetchLoop_runs_early_days f ds1 hpre (dN :: ds2) acc hdrs
  rw [heq]
  refine ⟨by simp [fetchLoop, hN, loopData], by simp [fetchLoop, hN, loopFlag],
    by simp [fetchLoop, hN, csvWritten], ?_⟩
  intro d ds acc'' hdrs'' hskip
  simp [fetchLoop, hskip]

theorem C1_auth_failure_aborts_witness :
    loopData (fetchLoop cfC1 [0, 1, 2] [] []) = some [] ∧
    loopFlag (fetchLoop cfC1 [0, 1, 2] [] []) = some true ∧
    csvWritten (fetchLoop cfC1 [0, 1, 2] [] []) = false :=
  ⟨(C1_auth_failure_aborts cfC1 [0] [2] 1 [] [] (by decide) (by decide)).1,
   (C1_auth_failure_aborts cfC1 [0] [2] 1 [] [] (by decide) (by decide)).2.1,
   (C1_auth_failure_aborts cfC1 [0] [2] 1 [] [] (by decide) (by decide)).2.2.1⟩

/-- **C9** (counterexample): a user interrupt on day 2 of a 2-day range —
after day 1 returned data — does *not* produce a preserved partial
dataset or a partial CSV: no handler catches it, the loop terminates
exceptionally, nothing is written, and the accumulated data is lost. -/
theorem C9_counterexample :
    fetchLoop cfC9 (dateRange 0 1) [] [] = .error () ∧
    csvWritten (fetchLoop cfC9 (dateRange 0 1) [] []) = false ∧
    loopData (fetchLoop cfC9 (dateRange 0 1) [] []) = none :=
  ⟨rfl, rfl, rfl⟩

/-- **C9** (amended): the fetch loop catches only the authentication
failure; an interactive interrupt (or any other exception) on some day of
the range propagates out of the loop, the run terminates without reaching
the CSV stage, and the accumulated data is not preserved. -/
theorem C9_interrupt_unhandled (f : Int → DayOutcome) (ds1 ds2 : List Int)
    (d : Int) (acc : DataTable) (hdrs : List String)
    (hd : f d = .interrupt)
    (hpre : ∀ x ∈ ds1, f x ≠ .authError ∧ f x ≠ .interrupt) :
    fetchLoop f (ds1 ++ d :: ds2) acc hdrs = .error () ∧
    csvWritten (fetchLoop f (ds1 ++ d :: ds2) acc hdrs) = false ∧
    loopData (fetchLoop f (ds1 ++ d :: ds2) acc hdrs) = none := by
  obtain ⟨acc', hdrs', heq⟩ :=
    fetchLoop_runs_early_days f ds1 hpre (d :: ds2) acc hdrs
  rw [heq]
  exact ⟨by simp [fetchLoop, hd], by simp [fetchLoop, hd, csvWritten],
    by simp [fetchLoop, hd, loopData]⟩

theorem C9_interrupt_unhandled_witness :
    fetchLoop cfC9 [0, 1] [] [] = .error () ∧
    csvWritten (fetchLoop cfC9 [0, 1] [] []) = false ∧
    loopData (fetchLoop cfC9 [0, 1] [] []) = none :=
  C9_interrupt_unhandled cfC9 [0] [] 1 [] [] (by decide) (by decide)

/-! ## Dictionary and header-set lemmas -/

theorem dictGet_insert_self {α β : Type} [DecidableEq α]
    (l : List (α × β)) (k : α) (v : β) :
    dictGet (dictInsert l k v) k = some v := by
  induction l with
  | nil => simp [dictInsert, dictGet]
  | cons p t ih =>
    obtain ⟨k0, v0⟩ := p
    by_cases h : k0 = k
    · simp [dictInsert, dictGet, h]
    · simp [dictInsert, dictGet, h, ih]

theorem dictGet_insert_ne {α β : Type} [DecidableEq α]
    (l : List (α × β)) (k' k : α) (v : β) (h : k' ≠ k) :
    dictGet (dictInsert l k' v) k = dictGet l k := by
  induction l with
  | nil => simp [dictInsert, dictGet, h]
  | cons p t ih =>
    obtain ⟨k0, v0⟩ := p
    by_cases h0 : k0 = k'
    · subst h0
      simp [dictInsert, dictGet, h]
    · simp [dictInsert, dictGet, h0, ih]

theorem mem_dictKeys_insert {α β : Type} [DecidableEq α]
    (l : List (α × β)) (k m : α) (v : β) :
    m ∈ dictKeys (dictInsert l k v) ↔ m ∈ dictKeys l ∨ m = k := by
  induction l with
  | nil => simp [dictInsert, dictKeys]
  | cons p t ih =>
    obtain ⟨k0, v0⟩ := p
    by_cases h0 : k0 = k
    · subst h0
      rw [show dictInsert ((k0, v0) :: t) k0 v = (k0, v) :: t from by
            simp [dictInsert]]
      rw [show dictKeys ((k0, v) :: t) = k0 :: dictKeys t from rfl,
        show dictKeys ((k0, v0) :: t) = k0 :: dictKeys t from rfl,
        List.mem_cons]
      tauto
    · rw [show dictInsert ((k0, v0) :: t) k v = (k0, v0) :: dictInsert t k v from by
            simp [dictInsert, h0]]
      rw [show dictKeys ((k0, v0) :: dictInsert t k v)
            = k0 :: dictKeys (dictInsert t k v) from rfl,
        show dictKeys ((k0, v0) :: t) = k0 :: dictKeys t from rfl,
        List.mem_cons, List.mem_cons, ih]
      tauto

theorem dictGet_isSome_iff {α β : Type} [DecidableEq α]
    (l : List (α × β)) (k : α) :
    (dictGet l k).isSome = true ↔ k ∈ dictKeys l := by
  induction l with
  | nil => simp [dictGet, dictKeys]
  | cons p t ih =>
    obtain ⟨k0, v0⟩ := p
    by_cases h0 : k0 = k
    · subst h0
      simp [dictGet, dictKeys]
    · simp only [dictGet, if_neg h0, dictKeys, List.map_cons, List.mem_cons, ih]
      constructor
      · exact Or.inr
      · rintro (h | h)
        · exact absurd h.symm h0
        · exact h

theorem mem_dictKeys_of_get {α β : Type} [DecidableEq α]
    {l : List (α × β)} {k : α} {v : β}
    (h : dictGet l k = some v) : k ∈ dictKeys l := by
  rw [← dictGet_isSome_iff, h]
  rfl

theorem dictGet_of_mem_nodup {α β : Type} [DecidableEq α]
    {l : List (α × β)} {p : α × β} (hp : p ∈ l)
    (hnd : (dictKeys l).Nodup) : dictGet l p.1 = some p.2 := by
  induction l with
  | nil => cases hp
  | cons q t ih =>
    have hc := List.nodup_cons.mp hnd
    rcases List.mem_cons.mp hp with h | h
    · subst h
      simp [dictGet]
    · have hq : q.1 ≠ p.1 := by
        intro he
        exact hc.1 (he ▸ List.mem_map.mpr ⟨p, h, rfl⟩)
      simp only [dictGet, if_neg hq]
      exact ih h hc.2

theorem dictKeys_insert_nodup {α β : Type} [DecidableEq α]
    (l : List (α × β)) (k : α) (v : β) (h : (dictKeys l).Nodup) :
    (dictKeys (dictInsert l k v)).Nodup := by
  induction l with
  | nil => simp [dictInsert, dictKeys]
  | cons p t ih =>
    obtain ⟨k0, v0⟩ := p
    have hc := List.nodup_cons.mp h
    by_cases h0 : k0 = k
    · subst h0
      rw [show dictInsert ((k0, v0) :: t) k0 v = (k0, v) :: t from by
            simp [dictInsert]]
      exact h
    · rw [show dictInsert ((k0, v0) :: t) k v = (k0, v0) :: dictInsert t k v from by
            simp [dictInsert, h0]]
      refine List.nodup_cons.mpr ⟨?_, ih hc.2⟩
      intro hmem
      rcases (mem_dictKeys_insert t k k0 v).mp hmem with hm | hm
      · exact hc.1 hm
      · exact h0 hm

theorem dictUpdate_get_notMem {α β : Type} [DecidableEq α]
    (d other : List (α × β)) (k : α) (h : k ∉ dictKeys other) :
    dictGet (dictUpdate d other) k = dictGet d k := by
  induction other generalizing d with
  | nil => rfl
  | cons p t ih =>
    obtain ⟨k0, v0⟩ := p
    have hk0 : k0 ≠ k := by
      intro he
      exact h (List.mem_cons.mpr (Or.inl he.symm))
    have ht : k ∉ dictKeys t := fun hm => h (List.mem_cons_of_mem _ hm)
    show dictGet (dictUpdate (dictInsert d k0 v0) t) k = dictGet d k
    rw [ih (dictInsert d k0 v0) ht, dictGet_insert_ne _ _ _ _ hk0]

theorem dictUpdate_get_mem {α β : Type} [DecidableEq α]
    (d other : List (α × β)) (k : α)
    (hnd : (dictKeys other).Nodup) (hm : k ∈ dictKeys other) :
    dictGet (dictUpdate d other) k = dictGet other k := by
  induction other generalizing d with
  | nil => simp [dictKeys] at hm
  | cons p t ih =>
    obtain ⟨k0, v0⟩ := p
    have hc := List.nodup_cons.mp hnd
    show dictGet (dictUpdate (dictInsert d k0 v0) t) k = dictGet ((k0, v0) :: t) k
    by_cases h0 : k0 = k
    · subst h0
      rw [dictUpdate_get_notMem _ _ _ hc.1, dictGet_insert_self]
      simp [dictGet]
    · have hmt : k ∈ dictKeys t := by
        rcases List.mem_cons.mp hm with h | h
        · exact absurd h.symm h0
        · exact h
      rw [ih (dictInsert d k0 v0) hc.2 hmt]
      simp [dictGet, h0]

theorem mem_dictKeys_update {α β : Type} [DecidableEq α]
    (d other : List (α × β)) (k : α) :
    k ∈ dictKeys (dictUpdate d other) ↔
      k ∈ dictKeys d ∨ k ∈ dictKeys other := by
  induction other generalizing d with
  | nil => simp [dictUpdate, dictKeys]
  | cons p t ih =>
    obtain ⟨k0, v0⟩ := p
    show k ∈ dictKeys (dictUpdate (dictInsert d k0 v0) t) ↔ _
    rw [ih, mem_dictKeys_insert,
      show dictKeys ((k0, v0) :: t) = k0 :: dictKeys t from rfl, List.mem_cons]
    tauto

theorem mem_setInsert (s : List String) (x y : String) :
    y ∈ setInsert s x ↔ y ∈ s ∨ y = x := by
  by_cases h : x ∈ s
  · simp only [setInsert, if_pos h]
    constructor
    · exact Or.inl
    · rintro (hy | hy)
      · exact hy
      · exact hy ▸ h
  · simp [setInsert, if_neg h]

theorem mem_foldl_setInsert (xs : List String) (s : List String) (y : String) :
    y ∈ xs.foldl setInsert s ↔ y ∈ s ∨ y ∈ xs := by
  induction xs generalizing s with
  | nil => simp
  | cons x t ih =>
    simp only [List.foldl_cons, ih, mem_setInsert, List.mem_cons]
    tauto

theorem mem_updateHeaders (hdrs : List String) (tbl : DataTable) (y : String) :
    y ∈ updateHeaders hdrs tbl ↔
      y ∈ hdrs ∨ ∃ p ∈ tbl, y ∈ dictKeys p.2 := by
  induction tbl generalizing hdrs with
  | nil => simp [updateHeaders]
  | cons p t ih =>
    have hinner : ∀ s : List String,
        y ∈ p.2.foldl (fun h q => setInsert h q.1) s ↔
          y ∈ s ∨ y ∈ dictKeys p.2 := by
      intro s
      rw [show p.2.foldl (fun h q => setInsert h q.1) s
            = (p.2.map Prod.fst).foldl setInsert s from
          (List.foldl_map Prod.fst setInsert p.2 s).symm]
      exact mem_foldl_setInsert _ _ _
    show y ∈ updateHeaders (p.2.foldl (fun h q => setInsert h q.1) hdrs) t ↔ _
    rw [ih, hinner]
    constructor
    · rintro ((hy | hy) | ⟨q, hq, hm⟩)
      · exact Or.inl hy
      · exact Or.inr ⟨p, List.mem_cons_self p t, hy⟩
      · exact Or.inr ⟨q, List.mem_cons_of_mem p hq, hm⟩
    · rintro (hy | ⟨q, hq, hm⟩)
      · exact Or.inl (Or.inl hy)
      · rcases List.mem_cons.mp hq with he | he
        · exact Or.inl (Or.inr (he ▸ hm))
        · exact Or.inr ⟨q, he, hm⟩

/-! ## Keys produced by the daily restructurer -/

theorem parse_api_timestamp_ord (d : Int) (t : Option String) (k : PyDateTime)
    (h : parse_api_timestamp d t = some k) : k.ord = d := by
  cases t with
  | none => simp [parse_api_timestamp] at h
  | some s =>
    by_cases hs : s = ""
    · simp [parse_api_timestamp, hs] at h
    · simp only [parse_api_timestamp, if_neg hs] at h
      cases h1 : strptimeHMS s.data with
      | some v =>
        obtain ⟨hh, mm, ss⟩ := v
        rw [h1] at h
        cases h
        rfl
      | none =>
        rw [h1] at h
        cases h2 : strptimeHM s.data with
        | some v =>
          obtain ⟨hh, mm⟩ := v
          rw [h2] at h
          cases h
          rfl
        | none =>
          rw [h2] at h
          cases h

theorem processRecord_keys (d : Int) (hname : String) (tbl : DataTable)
    (r : ApiRecord) (k : PyDateTime)
    (hk : k ∈ dictKeys (processRecord d hname tbl r)) :
    k ∈ dictKeys tbl ∨ k.ord = d := by
  unfold processRecord at hk
  split at hk
  · next k0 v hp hv =>
    rcases (mem_dictKeys_insert _ _ _ _).mp hk with h | h
    · exact Or.inl h
    · exact Or.inr (h ▸ parse_api_timestamp_ord d r.time k0 hp)
  · exact Or.inl hk

theorem processRecord_nodup (d : Int) (hname : String) (tbl : DataTable)
    (r : ApiRecord) (h : (dictKeys tbl).Nodup) :
    (dictKeys (processRecord d hname tbl r)).Nodup := by
  unfold processRecord
  split
  · exact dictKeys_insert_nodup _ _ _ h
  · exact h

theorem foldl_processRecord_keys (d : Int) (hname : String)
    (recs : List ApiRecord) (tbl : DataTable) (k : PyDateTime)
    (hk : k ∈ dictKeys (recs.foldl (processRecord d hname) tbl)) :
    k ∈ dictKeys tbl ∨ k.ord = d := by
  induction recs generalizing tbl with
  | nil => exact Or.inl hk
  | cons r t ih =>
    rcases ih (processRecord d hname tbl r) hk with h | h
    · exact processRecord_keys d hname tbl r k h
    · exact Or.inr h

theorem foldl_processRecord_nodup (d : Int) (hname : String)
    (recs : List ApiRecord) (tbl : DataTable)
    (h : (dictKeys tbl).Nodup) :
    (dictKeys (recs.foldl (processRecord d hname) tbl)).Nodup := by
  induction recs generalizing tbl with
  | nil => exact h
  | cons r t ih => exact ih _ (processRecord_nodup d hname tbl r h)

theorem processInfo_keys (d : Int) (tbl : DataTable) (info : ApiInfo)
    (k : PyDateTime) (hk : k ∈ dictKeys (processInfo d tbl info)) :
    k ∈ dictKeys tbl ∨ k.ord = d := by
  unfold processInfo at hk
  split at hk
  · exact Or.inl hk
  · split at hk
    · exact Or.inl hk
    · exact foldl_processRecord_keys _ _ _ _ _ hk

theorem processInfo_nodup (d : Int) (tbl : DataTable) (info : ApiInfo)
    (h : (dictKeys tbl).Nodup) :
    (dictKeys (processInfo d tbl info)).Nodup := by
  unfold processInfo
  split
  · exact h
  · split
    · exact h
    · exact foldl_processRecord_nodup _ _ _ _ h

theorem restructureDay_keys_ord (d : Int) (infos : List ApiInfo)
    (tbl : DataTable) (h : restructureDay d infos = some tbl) :
    (∀ k ∈ dictKeys tbl, k.ord = d) ∧ (dictKeys tbl).Nodup := by
  have haux : ∀ (l : List ApiInfo) (t0 : DataTable),
      (∀ k ∈ dictKeys t0, k.ord = d) → (dictKeys t0).Nodup →
      (∀ k ∈ dictKeys (l.foldl (processInfo d) t0), k.ord = d) ∧
        (dictKeys (l.foldl (processInfo d) t0)).Nodup := by
    intro l
    induction l with
    | nil => exact fun t0 h1 h2 => ⟨h1, h2⟩
    | cons i t ih =>
      intro t0 h1 h2
      refine ih (processInfo d t0 i) ?_ (processInfo_nodup d t0 i h2)
      intro k hk
      rcases processInfo_keys d t0 i k hk with hm | hm
      · exact h1 k hm
      · exact hm
  simp only [restructureDay] at h
  split at h
  · cases h
  · cases h
    exact haux infos [] (by simp [dictKeys]) (by simp [dictKeys])

/-- The days the loop visits are strictly increasing. -/
theorem pairwise_dateRange (s e : Int) :
    List.Pairwise (· < ·) (dateRange s e) := by
  unfold dateRange
  refine List.Pairwise.map (fun i : Nat => s + Int.ofNat i) ?_
    (List.pairwise_lt_range (e + 1 - s).toNat)
  intro a b hab
  show s + Int.ofNat a < s + Int.ofNat b
  exact Int.add_lt_add_left (Int.ofNat_lt.mpr hab) s

/-- Invariant of the fetch loop: on a normal completion, every header ever
collected occurs in some row of the final dataset, provided each day's
table is keyed by datetimes of that very day (with no duplicate keys) and
the days are strictly increasing. -/
theorem fetchLoop_completed_headers (f : Int → DayOutcome) :
    ∀ (days : List Int) (acc : DataTable) (hdrs : List String)
      (data : DataTable) (hdrs2 : List String),
    (∀ d ∈ days, ∀ tbl, f d = .ok tbl →
      (∀ k ∈ dictKeys tbl, k.ord = d) ∧ (dictKeys tbl).Nodup) →
    List.Pairwise (· < ·) days →
    (∀ k ∈ dictKeys acc, ∀ d ∈ days, k.ord < d) →
    (∀ y ∈ hdrs, ∃ k row, dictGet acc k = some row ∧
      (dictGet row y).isSome = true) →
    fetchLoop f days acc hdrs = .ok (data, hdrs2, false) →
    ∀ y ∈ hdrs2, ∃ k row, dictGet data k = some row ∧
      (dictGet row y).isSome = true := by
  intro days
  induction days with
  | nil =>
    intro acc hdrs data hdrs2 _ _ _ hinv hrun
    obtain ⟨h1, h2, _⟩ : acc = data ∧ hdrs = hdrs2 ∧ (false : Bool) = false := by
      simpa [fetchLoop] using hrun
    subst h1
    subst h2
    exact hinv
  | cons d ds ih =>
    intro acc hdrs data hdrs2 hout hpw hacc hinv hrun
    have hpw' : List.Pairwise (· < ·) ds := (List.pairwise_cons.mp hpw).2
    have hdlt : ∀ x ∈ ds, d < x := (List.pairwise_cons.mp hpw).1
    have hout' : ∀ d' ∈ ds, ∀ tbl, f d' = .ok tbl →
        (∀ k ∈ dictKeys tbl, k.ord = d') ∧ (dictKeys tbl).Nodup :=
      fun d' hd' => hout d' (List.mem_cons_of_mem d hd')
    cases hfd : f d with
    | ok tbl =>
      by_cases htbl : tbl = []
      · rw [show fetchLoop f (d :: ds) acc hdrs = fetchLoop f ds acc hdrs from by
              simp [fetchLoop, hfd, htbl]] at hrun
        exact ih acc hdrs data hdrs2 hout' hpw'
          (fun k hk d' hd' => hacc k hk d' (List.mem_cons_of_mem d hd'))
          hinv hrun
      · have hkeys := (hout d (List.mem_cons_self d ds) tbl hfd).1
        have hnd := (hout d (List.mem_cons_self d ds) tbl hfd).2
        rw [show fetchLoop f (d :: ds) acc hdrs
              = fetchLoop f ds (dictUpdate acc tbl) (updateHeaders hdrs tbl) from by
              simp [fetchLoop, hfd, htbl]] at hrun
        refine ih (dictUpdate acc tbl) (updateHeaders hdrs tbl) data hdrs2
          hout' hpw' ?_ ?_ hrun
        · intro k hk d' hd'
          rcases (mem_dictKeys_update acc tbl k).mp hk with hm | hm
          · exact hacc k hm d' (List.mem_cons_of_mem d hd')
          · rw [hkeys k hm]
            exact hdlt d' hd'
        · intro y hy
          rcases (mem_updateHeaders hdrs tbl y).mp hy with hy | ⟨p, hp, hm⟩
          · obtain ⟨k, row, hk, hrow⟩ := hinv y hy
            refine ⟨k, row, ?_, hrow⟩
            rw [dictUpdate_get_notMem acc tbl k ?_]
            · exact hk
            · intro hmem
              have h1 : k.ord = d := hkeys k hmem
              have h2 : k.ord < d :=
                hacc k (mem_dictKeys_of_get hk) d (List.mem_cons_self d ds)
              omega
          · refine ⟨p.1, p.2, ?_, (dictGet_isSome_iff p.2 y).mpr hm⟩
            rw [dictUpdate_get_mem acc tbl p.1 hnd
              (List.mem_map.mpr ⟨p, hp, rfl⟩)]
            exact dictGet_of_mem_nodup hp hnd
    | skipped =>
      rw [show fetchLoop f (d :: ds) acc hdrs = fetchLoop f ds acc hdrs from by
            simp [fetchLoop, hfd]] at hrun
      exact ih acc hdrs data hdrs2 hout' hpw'
        (fun k hk d' hd' => hacc k hk d' (List.mem_cons_of_mem d hd'))
        hinv hrun
    | authError =>
      rw [show fetchLoop f (d :: ds) acc hdrs = .ok ([], hdrs, true) from by
            simp [fetchLoop, hfd]] at hrun
      simp at hrun
    | interrupt =>
      rw [show fetchLoop f (d :: ds) acc hdrs = .error () from by
            simp [fetchLoop, hfd]] at hrun
      cases hrun

/-- **C10**: when every day's data is produced by the daily restructurer
(so its keys carry that day's date) and the loop over the ascending
inclusive range completes normally, every column key in the header set
occurs in at least one row of the final dataset — a series whose records
were all rejected contributes no column even though its key was observed
in the response. -/
theorem C10_headers_occur_in_rows (f : Int → DayOutcome) (s e : Int)
    (data : DataTable) (hdrs : List String)
    (hsrc : ∀ d ∈ dateRange s e, ∀ tbl, f d = .ok tbl →
      ∃ infos, restructureDay d infos = some tbl)
    (hrun : fetchLoop f (dateRange s e) [] [] = .ok (data, hdrs, false)) :
    ∀ y ∈ hdrs, ∃ k row, dictGet data k = some row ∧
      (dictGet row y).isSome = true := by
  refine fetchLoop_completed_headers f (dateRange s e) [] [] data hdrs
    ?_ (pairwise_dateRange s e) (by simp [dictKeys]) (by simp) hrun
  intro d hd tbl htbl
  obtain ⟨infos, hinfos⟩ := hsrc d hd tbl htbl
  exact restructureDay_keys_ord d infos tbl hinfos

theorem C10_headers_occur_in_rows_witness :
    ∃ k row,
      dictGet [((⟨0, 8, 30, 0⟩ : PyDateTime), [("PV[W]", "123")])] k
        = some row ∧
      (dictGet row "PV[W]").isSome = true := by
  refine C10_headers_occur_in_rows f10 0 1
    [((⟨0, 8, 30, 0⟩ : PyDateTime), [("PV[W]", "123")])] ["PV[W]"]
    ?_ rfl "PV[W]" (by decide)
  intro d hd tbl htbl
  have hd2 : d = 0 ∨ d = 1 := by
    have hmem : d ∈ dateRange 0 1 := hd
    rw [show dateRange 0 1 = [0, 1] from by decide] at hmem
    simpa using hmem
  rcases hd2 with h | h
  · subst h
    refine ⟨infos10, ?_⟩
    have he : f10 0 = DayOutcome.ok
        [((⟨0, 8, 30, 0⟩ : PyDateTime), [("PV[W]", "123")])] := rfl
    rw [he] at htbl
    cases htbl
    rfl
  · subst h
    have he : f10 1 = DayOutcome.skipped := rfl
    rw [he] at htbl
    cases htbl

/-- **C8**: for a nonempty final dataset and header set, the CSV is a
header row `DateTime` followed by every observed column key sorted
lexicographically ascending, then one row per dataset timestamp in
ascending datetime order; each data row's first field is the canonical
`YYYY-MM-DD HH:MM:SS` string of its key, and the field for a column
absent from that row's map is the empty string, not an omission. -/
theorem C8_csv_shape (data : DataTable) (hdrs : List String)
    (hdata : data ≠ []) (hhdrs : hdrs ≠ []) :
    csvOutput data hdrs
      = ("DateTime" :: sortedHeaders hdrs) ::
        (sortedDatetimes data).map (csvRowFor data hdrs) ∧
    List.Sorted (· ≤ ·) (sortedHeaders hdrs) ∧
    (sortedHeaders hdrs).Perm hdrs ∧
    List.Sorted PyDateTime.le (sortedDatetimes data) ∧
    (sortedDatetimes data).Perm (dictKeys data) ∧
    (∀ k : PyDateTime,
      (csvRowFor data hdrs k).length = (sortedHeaders hdrs).length + 1) ∧
    (∀ k : PyDateTime,
      (csvRowFor data hdrs k).head? = some (fmtDateTime k)) ∧
    (∀ (k : PyDateTime) (i : Nat) (hi : i < (sortedHeaders hdrs).length),
      (csvRowFor data hdrs k)[i + 1]? =
        some ((dictGet ((dictGet data k).getD [])
          ((sortedHeaders hdrs).get ⟨i, hi⟩)).getD "")) := by
  refine ⟨rfl, ?_, ?_, ?_, ?_, ?_, ?_, ?_⟩
  · exact List.sorted_insertionSort _ _
  · exact List.perm_insertionSort _ _
  · exact List.sorted_insertionSort _ _
  · exact List.perm_insertionSort _ _
  · intro k
    simp [csvRowFor]
  · intro k
    simp [csvRowFor]
  · intro k i hi
    simp [csvRowFor, List.getElem?_map, List.getElem?_eq_getElem hi]

theorem C8_csv_shape_witness :
    csvOutput sampleTable ["B", "A"]
      = ("DateTime" :: sortedHeaders ["B", "A"]) ::
        (sortedDatetimes sampleTable).map (csvRowFor sampleTable ["B", "A"]) ∧
    List.Sorted (· ≤ ·) (sortedHeaders ["B", "A"]) ∧
    List.Sorted PyDateTime.le (sortedDatetimes sampleTable) :=
  ⟨(C8_csv_shape sampleTable ["B", "A"] (by decide) (by decide)).1,
   (C8_csv_shape sampleTable ["B", "A"] (by decide) (by decide)).2.1,
   (C8_csv_shape sampleTable ["B", "A"] (by decide) (by decide)).2.2.2.1⟩
